import Mathlib

/-!
Verification of the pixel transform engine of the image processing service
(`src/app.py`).

The in-memory image is modelled by `PixelBuffer`: width, height, channel
count and a sample function (row `i`, column `j`, channel `k`).  Sample
values are natural numbers in `[0,255]`; the floating-point accumulators
used by `apply_noise_reduction` (numpy `float32`) are modelled by exact
rationals.

The transforms implemented inside the repository (`apply_noise_reduction`,
the enhance/rotate composition order, the operation registry and the
request handler `process_image`) are translated directly from the source.
The pixel-level behaviour of the PIL library calls the source delegates to
(`GaussianBlur`, `SHARPEN`, `FIND_EDGES`, `convert`, `ImageEnhance`,
`rotate`) is not part of the repository; those parts are modelled from the
spec, and each such definition is marked `Modelled from the spec:` in its
doc comment.  Quantities the spec leaves open (the exact Gaussian blur
weights, the rotation resampling rule) are taken as parameters, collected
in `Externals`, so every theorem about them holds for any choice.
-/

/-- The image data model (spec section 3): width, height, channel count and a
flat store of unsigned 8-bit samples.  The store is modelled as a total
function from (row, column, channel) to the sample value; indices outside
`[0,height) × [0,width) × [0,channels)` are irrelevant junk. -/
structure PixelBuffer where
  width : Nat
  height : Nat
  channels : Nat
  data : Nat → Nat → Nat → Nat

/-- A buffer in which every sample of every channel holds the same value. -/
def mkUniform (w h c v : Nat) : PixelBuffer :=
  { width := w, height := h, channels := c, data := fun _ _ _ => v }

/-- Floating-point pixel store (the `FloatAccumulator` of spec section 3),
indexed like `PixelBuffer.data`. -/
abbrev Q3 : Type := Nat → Nat → Nat → ℚ

/-- Promotion of the 8-bit samples to floating point, `img_array.astype(np.float32)`
in `apply_noise_reduction` (src/app.py line 125).  Values in `[0,255]` are exact
in `float32`, so the rational model is faithful to the promotion. -/
def toFloatData (b : PixelBuffer) : Q3 := fun i j k => (b.data i j k : ℚ)

/-- Final demotion of `apply_noise_reduction` (src/app.py line 145):
`np.clip(result, 0, 255).astype(np.uint8)` clamps to `[0,255]` and then
truncates toward zero, i.e. takes the floor of the clamped value. -/
def clampByte (q : ℚ) : Nat := (Int.floor (max 0 (min q 255))).toNat

/-- Clamp to `[0,255]` followed by rounding to the nearest integer; the
demotion used by the PIL-backed transforms (spec sections 4.2 and 4.3:
clamp-and-round after the full weighted sum / after each step). -/
def clampRound (q : ℚ) : Nat := (Int.floor (max 0 (min q 255) + 1 / 2)).toNat

/-- Kernel size of the box filter in `apply_noise_reduction`
(src/app.py line 130): `kernel_size = 3`. -/
def kernel_size : Nat := 3

/-- Edge-replicating pad of `apply_noise_reduction` (src/app.py lines 131-133):
`np.pad(result, ((k//2, k//2), (k//2, k//2), (0, 0)), mode='edge')` pads the two
spatial axes by `kernel_size // 2 = 1` and leaves the channel axis alone.
Entry `(a, b, k)` of the padded array is entry
`(min (a-1) (h-1), min (b-1) (w-1), k)` of the original (natural-number
subtraction clamps the low edge, `min` clamps the high edge), which is
exactly numpy edge replication for all indices the pass reads. -/
def npPadEdge (hgt wdt : Nat) (f : Q3) : Q3 := fun a b k =>
  f (min (a - kernel_size / 2) (hgt - 1)) (min (b - kernel_size / 2) (wdt - 1)) k

/-- Per-pixel window mean of `apply_noise_reduction` (src/app.py lines 138-141):
`np.mean(padded[i:i+kernel_size, j:j+kernel_size], axis=(0, 1))` sums the
`3 × 3` spatial window of the padded array, per channel, and divides by 9. -/
def npMeanWindow (g : Q3) : Q3 := fun i j k =>
  (∑ di in Finset.range kernel_size, ∑ dj in Finset.range kernel_size,
    g (i + di) (j + dj) k) / 9

/-- One smoothing pass of `apply_noise_reduction` (src/app.py lines 130-142):
pad the current buffer with edge replication, then give every pixel of a
fresh output buffer the mean of its 3×3 window of the padded buffer. -/
def smoothingPass (hgt wdt : Nat) (f : Q3) : Q3 :=
  npMeanWindow (npPadEdge hgt wdt f)

/-- The pass loop of `apply_noise_reduction` (src/app.py line 128):
`for _ in range(3)` reassigns `result` to the output of a smoothing pass
exactly three times; unrolled here. -/
def noiseReductionPasses (hgt wdt : Nat) (f : Q3) : Q3 :=
  let r1 := smoothingPass hgt wdt f
  let r2 := smoothingPass hgt wdt r1
  let r3 := smoothingPass hgt wdt r2
  r3

/-- Embedding of `apply_noise_reduction` (src/app.py lines 118-146).
`np.array(image)` is a 2-D array for a 1-channel image and a 3-D array
(height, width, channels) otherwise.  The pad spec of line 131 names three
axes; on a 2-D array `np.pad` cannot broadcast the three pad pairs to two
axes and raises `ValueError`, so the transform fails (`none`) on 1-channel
buffers before completing any pass.  On 3-D arrays it promotes to float,
runs three smoothing passes, clamps to `[0,255]` and truncates to `uint8`,
preserving the array shape. -/
def apply_noise_reduction (b : PixelBuffer) : Option PixelBuffer :=
  if b.channels = 1 then none
  else some
    { width := b.width, height := b.height, channels := b.channels,
      data := fun i j k =>
        clampByte (noiseReductionPasses b.height b.width (toFloatData b) i j k) }

/-- Spec section 4.5 step 2c, stated in the spec's own words: the value at
pixel `(i, j)`, channel `k`, is the arithmetic mean of the 3×3 spatial
neighborhood centered at `(i, j)`, with out-of-bounds neighbors replaced by
edge replication (the padded buffer of the pass). -/
def specBoxMean3 (hgt wdt : Nat) (f : Q3) : Q3 := fun i j k =>
  (∑ di in Finset.range 3, ∑ dj in Finset.range 3,
    f (min (i + di - 1) (hgt - 1)) (min (j + dj - 1) (wdt - 1)) k) / 9

/-- Spec section 4.5, the whole contract in the spec's own words: promote to
floating point, take three box-filter passes, then clamp every value to
`[0,255]` and truncate to an unsigned 8-bit sample, keeping the
width/height/channels of the input. -/
def specNoiseReduced (b : PixelBuffer) : PixelBuffer :=
  { width := b.width, height := b.height, channels := b.channels,
    data := fun i j k =>
      clampByte (specBoxMean3 b.height b.width
        (specBoxMean3 b.height b.width
          (specBoxMean3 b.height b.width (toFloatData b))) i j k) }

lemma smoothingPass_const (hgt wdt : Nat) (q : ℚ) :
    smoothingPass hgt wdt (fun _ _ _ => q) = fun _ _ _ => q := by
  funext i j k
  simp [smoothingPass, npMeanWindow, npPadEdge, Finset.sum_const, Finset.card_range,
    nsmul_eq_mul, kernel_size]
  ring

lemma noiseReductionPasses_const (hgt wdt : Nat) (q : ℚ) :
    noiseReductionPasses hgt wdt (fun _ _ _ => q) = fun _ _ _ => q := by
  simp [noiseReductionPasses, smoothingPass_const]

lemma clampByte_natCast (v : Nat) (hv : v ≤ 255) : clampByte ((v : ℚ)) = v := by
  unfold clampByte
  have h1 : min ((v : ℚ)) 255 = (v : ℚ) := min_eq_left (by exact_mod_cast hv)
  have h2 : max (0 : ℚ) ((v : ℚ)) = (v : ℚ) := max_eq_right (by positivity)
  rw [h1, h2, Int.floor_natCast]
  exact Int.toNat_natCast v

/-- C2 amended (theorem): for every width, height and every sample value
`v ≤ 255`, noise reduction maps the uniform 3-channel buffer of value `v` to
itself: each box-filter pass sends the constant accumulator to itself (the
mean of nine equal values is that value, exactly, since values `0..255` and
their ninth-sums are exact in `float32`), and the final clamp-and-truncate
returns `v`. -/
theorem noise_reduction_uniform_identity (w h v : Nat) (hv : v ≤ 255) :
    apply_noise_reduction (mkUniform w h 3 v) = some (mkUniform w h 3 v) := by
  have hfloat : toFloatData (mkUniform w h 3 v) = fun _ _ _ => (v : ℚ) := rfl
  have hfun : (fun i j k =>
      clampByte (noiseReductionPasses h w (toFloatData (mkUniform w h 3 v)) i j k)) =
      fun _ _ _ => v := by
    funext i j k
    rw [hfloat, noiseReductionPasses_const]
    exact clampByte_natCast v hv
  show (if (3 : Nat) = 1 then none else _) = _
  rw [if_neg (by omega)]
  exact congrArg some (congrArg (PixelBuffer.mk w h 3) hfun)

/-- C2 witness: the amended concrete scenario, a 4×4 three-channel buffer
with every sample 100 passes through noise reduction unchanged. -/
theorem noise_reduction_uniform_identity_4x4 :
    apply_noise_reduction (mkUniform 4 4 3 100) = some (mkUniform 4 4 3 100) :=
  noise_reduction_uniform_identity 4 4 100 (by norm_num)

/-- C2 counterexample: the claim's own literal scenario fails on the code. A
4×4 single-channel buffer with every sample 100 makes `np.array(image)` 2-D,
`np.pad` with a three-axis pad spec raises `ValueError`, and the operation
produces no buffer at all instead of returning the input unchanged. -/
theorem noise_reduction_uniform_one_channel_not_identity :
    apply_noise_reduction (mkUniform 4 4 1 100) = none := rfl

/-- C3 (theorem, for the 3-channel buffers on which the algorithm runs):
`apply_noise_reduction` promotes the samples to floating point, performs
exactly three passes, each giving every pixel and channel the arithmetic
mean of the 3×3 edge-replicated spatial neighborhood of the previous pass's
buffer, and finally clamps to `[0,255]` and truncates to unsigned 8-bit
samples — literally the spec's description `specNoiseReduced`. -/
theorem noise_reduction_is_three_box_filter_passes (b : PixelBuffer)
    (hc : b.channels = 3) :
    apply_noise_reduction b = some (specNoiseReduced b) := by
  unfold apply_noise_reduction
  rw [if_neg (by omega)]
  rfl

/-- C3 witness: the characterization evaluated on a concrete 2×2
three-channel buffer. -/
theorem noise_reduction_is_three_box_filter_passes_example :
    apply_noise_reduction (mkUniform 2 2 3 5) = some (specNoiseReduced (mkUniform 2 2 3 5)) :=
  noise_reduction_is_three_box_filter_passes (mkUniform 2 2 3 5) rfl

/-- C3 counterexample: on a single-channel buffer the operation fails at the
pad of the first pass (`ValueError` from `np.pad`), so it does not perform
three passes and produces no clamped output at all. -/
theorem noise_reduction_one_channel_no_passes :
    apply_noise_reduction (mkUniform 2 3 1 9) = none := rfl

/-- The fresh per-pass output buffer, `output = np.zeros_like(result)`
(src/app.py line 135). -/
def zerosLike : Q3 := fun _ _ _ => 0

/-- One write of the pass's double loop (src/app.py lines 136-141):
`output[i, j] = np.mean(padded[i:i+kernel_size, j:j+kernel_size], axis=(0, 1))`
overwrites pixel `p` of the accumulating output with the window mean, which
reads only the padded previous-pass buffer `f`, never the output itself. -/
def writePixelMean (hgt wdt : Nat) (f : Q3) (out : Q3) (p : Nat × Nat) : Q3 :=
  fun i j k =>
    if i = p.1 ∧ j = p.2 then smoothingPass hgt wdt f p.1 p.2 k else out i j k

/-- The pass's double loop as a fold of `writePixelMean` over an explicit
visit order of pixel coordinates, starting from the zero buffer; the source
visits `allPixels` (row-major). -/
def passFold (hgt wdt : Nat) (f : Q3) (order : List (Nat × Nat)) : Q3 :=
  order.foldl (writePixelMean hgt wdt f) zerosLike

/-- Row-major enumeration of the pixel coordinates of an `hgt × wdt` image,
the visit order of the source's `for i ... for j ...` loops. -/
def allPixels (hgt wdt : Nat) : List (Nat × Nat) :=
  (List.range hgt).flatMap (fun i => (List.range wdt).map (fun j => (i, j)))

lemma mem_allPixels (hgt wdt i j : Nat) :
    (i, j) ∈ allPixels hgt wdt ↔ i < hgt ∧ j < wdt := by
  simp [allPixels, List.mem_flatMap, List.mem_map, List.mem_range]

lemma foldl_writePixelMean_not_mem (hgt wdt : Nat) (f : Q3)
    (order : List (Nat × Nat)) (z : Q3) (i j k : Nat) (h : (i, j) ∉ order) :
    order.foldl (writePixelMean hgt wdt f) z i j k = z i j k := by
  induction order generalizing z with
  | nil => rfl
  | cons p rest ih =>
    have hrest : (i, j) ∉ rest := fun hr => h (List.mem_cons_of_mem p hr)
    have hne : ¬(i = p.1 ∧ j = p.2) := by
      rintro ⟨h1, h2⟩
      exact h (by simp [h1, h2, List.mem_cons])
    rw [List.foldl_cons, ih (writePixelMean hgt wdt f z p) hrest]
    simp [writePixelMean, hne]

lemma foldl_writePixelMean_mem (hgt wdt : Nat) (f : Q3)
    (order : List (Nat × Nat)) (z : Q3) (i j k : Nat) (h : (i, j) ∈ order) :
    order.foldl (writePixelMean hgt wdt f) z i j k = smoothingPass hgt wdt f i j k := by
  induction order generalizing z with
  | nil => cases h
  | cons p rest ih =>
    rw [List.foldl_cons]
    by_cases hr : (i, j) ∈ rest
    · exact ih (writePixelMean hgt wdt f z p) hr
    · have hp : p = (i, j) := by
        rcases List.mem_cons.mp h with he | hr2
        · exact he.symm
        · exact absurd hr2 hr
      rw [foldl_writePixelMean_not_mem hgt wdt f rest _ i j k hr]
      simp [writePixelMean, hp]

/-- C4: within a noise-reduction pass the output buffer starts fresh and every
written value reads only the previous pass's buffer `f` (through its padded
form), never values already written during the same pass; consequently the
loop's result at every in-range pixel equals the functional box filter
`smoothingPass` no matter in which order — any permutation of the row-major
`allPixels` — the pixels are visited. -/
theorem pass_order_independence (hgt wdt : Nat) (f : Q3)
    (order : List (Nat × Nat)) (hperm : order.Perm (allPixels hgt wdt))
    (i j k : Nat) (hi : i < hgt) (hj : j < wdt) :
    passFold hgt wdt f order i j k = smoothingPass hgt wdt f i j k := by
  apply foldl_writePixelMean_mem
  exact hperm.mem_iff.mpr ((mem_allPixels hgt wdt i j).mpr ⟨hi, hj⟩)

/-- C4 witness: visiting the pixels of a 2×2 image in reverse row-major order
yields the same value at pixel (0,1) as the functional pass. -/
theorem pass_order_independence_example :
    passFold 2 2 (fun i j _ => (i : ℚ) + j) ((allPixels 2 2).reverse) 0 1 0 =
      smoothingPass 2 2 (fun i j _ => (i : ℚ) + j) 0 1 0 :=
  pass_order_independence 2 2 (fun i j _ => (i : ℚ) + j) ((allPixels 2 2).reverse)
    (List.reverse_perm (allPixels 2 2)) 0 1 0 (by norm_num) (by norm_num)

/-- Modelled from the spec: the parameters of the external PIL calls that the
spec leaves open — the Gaussian blur weights of section 4.2 (irrational, only
described as a normalized radius-5 Gaussian) and the rotation resampling rule
of section 4.4 (explicitly an open question in section 9).  Every theorem
quantifies over these, so it holds for any faithful choice. -/
structure Externals where
  blurKernel : Nat → Nat → ℚ
  resamplePos45 : PixelBuffer → Nat → Nat → Nat → Nat
  resampleNeg45 : PixelBuffer → Nat → Nat → Nat → Nat

/-- A fixed trivial choice of the external parameters, used to instantiate
theorems on concrete inputs. -/
def defaultExternals : Externals :=
  { blurKernel := fun _ _ => 0,
    resamplePos45 := fun _ _ _ _ => 0,
    resampleNeg45 := fun _ _ _ _ => 0 }

/-- Modelled from the spec: the `ConvolutionEngine` of section 4.2, whose
implementation lives in PIL's filter code, not in the repository.  The output
keeps the input's width/height/channels; each output value is the weighted
sum over the kernel footprint of the same channel plane, with edge
replication for out-of-bounds samples (pad `ksize / 2`), divided by the
normalization factor and clamped to `[0,255]` after the full sum. -/
def applyKernel (ksize : Nat) (wts : Nat → Nat → ℚ) (divisor : ℚ)
    (b : PixelBuffer) : PixelBuffer :=
  { width := b.width, height := b.height, channels := b.channels,
    data := fun i j k =>
      clampRound ((∑ di in Finset.range ksize, ∑ dj in Finset.range ksize,
        wts di dj * toFloatData b (min (i + di - ksize / 2) (b.height - 1))
          (min (j + dj - ksize / 2) (b.width - 1)) k) / divisor) }

/-- Modelled from the spec: `apply_blur` (src/app.py lines 72-74) delegates to
PIL `GaussianBlur(radius=5)`; section 4.2 describes it as an 11×11
Gaussian-weighted kernel normalized to sum to 1, whose exact weights the
model takes as a parameter. -/
def apply_blur (gw : Nat → Nat → ℚ) (b : PixelBuffer) : PixelBuffer :=
  applyKernel 11 gw 1 b

/-- Modelled from the spec: the fixed 3×3 sharpen kernel of section 4.2,
emphasizing the center with negative neighbor weights, divisor 1. -/
def sharpenKernelW : Nat → Nat → ℚ := fun di dj =>
  if di = 1 ∧ dj = 1 then 9 else -1

/-- Modelled from the spec: `apply_sharpen` (src/app.py lines 77-79)
delegates to PIL `SHARPEN`; section 4.2 describes it as a fixed 3×3
center-emphasizing kernel with divisor 1. -/
def apply_sharpen (b : PixelBuffer) : PixelBuffer :=
  applyKernel 3 sharpenKernelW 1 b

/-- Modelled from the spec: the fixed 3×3 edge-detection kernel of section
4.2, a high-pass kernel whose weights sum to zero so it nulls out uniform
regions. -/
def edgeKernelW : Nat → Nat → ℚ := fun di dj =>
  if di = 1 ∧ dj = 1 then 8 else -1

/-- Modelled from the spec: `apply_edge_detect` (src/app.py lines 82-84)
delegates to PIL `FIND_EDGES`, a fixed 3×3 high-pass kernel. -/
def apply_edge_detect (b : PixelBuffer) : PixelBuffer :=
  applyKernel 3 edgeKernelW 1 b

/-- Modelled from the spec: per-pixel luminance (section 4.3), the fixed
weighting `0.299 R + 0.587 G + 0.114 B` for 3-channel buffers and the sample
itself for single-channel buffers. -/
def lumAt (b : PixelBuffer) (i j : Nat) : ℚ :=
  if b.channels = 3 then
    (299 * (b.data i j 0 : ℚ) + 587 * (b.data i j 1 : ℚ) + 114 * (b.data i j 2 : ℚ)) / 1000
  else (b.data i j 0 : ℚ)

/-- Modelled from the spec: the saturation step of `enhance` (section 4.3
step 1), `output = base + factor * (input - base)` per channel with the
pixel's own desaturated (grayscale-equivalent) value as base, clamped and
rounded after the step. -/
def saturationStep (t : ℚ) (b : PixelBuffer) : PixelBuffer :=
  { width := b.width, height := b.height, channels := b.channels,
    data := fun i j k =>
      clampRound (lumAt b i j + t * ((b.data i j k : ℚ) - lumAt b i j)) }

/-- Modelled from the spec: the mean luminance of the entire image, the
single scalar base of the contrast step (section 4.3 step 2). -/
def meanLum (b : PixelBuffer) : ℚ :=
  (∑ i in Finset.range b.height, ∑ j in Finset.range b.width, lumAt b i j) /
    ((b.height * b.width : Nat) : ℚ)

/-- Modelled from the spec: the contrast step of `enhance` (section 4.3
step 2), linear interpolation away from the image's mean luminance,
broadcast to all pixels, clamped and rounded after the step. -/
def contrastStep (t : ℚ) (b : PixelBuffer) : PixelBuffer :=
  { width := b.width, height := b.height, channels := b.channels,
    data := fun i j k =>
      clampRound (meanLum b + t * ((b.data i j k : ℚ) - meanLum b)) }

/-- Modelled from the spec: the sharpness step of `enhance` (section 4.3
step 3), unsharp-mask style interpolation whose base is a blurred (low-pass)
copy of the image at the same point, realized as the 3×3 edge-replicated
mean (`specBoxMean3`), clamped and rounded after the step. -/
def sharpnessStep (t : ℚ) (b : PixelBuffer) : PixelBuffer :=
  { width := b.width, height := b.height, channels := b.channels,
    data := fun i j k =>
      clampRound (specBoxMean3 b.height b.width (toFloatData b) i j k +
        t * ((b.data i j k : ℚ) - specBoxMean3 b.height b.width (toFloatData b) i j k)) }

/-- Embedding of `apply_enhance` (src/app.py lines 92-106): the image is
reassigned through three sequential enhancement steps — saturation with
factor 1.5, then contrast with factor 1.3, then sharpness with factor 1.2 —
each consuming the previous step's output. -/
def apply_enhance (b : PixelBuffer) : PixelBuffer :=
  let image := saturationStep (3 / 2) b
  let image := contrastStep (13 / 10) image
  let image := sharpnessStep (6 / 5) image
  image

/-- Modelled from the spec: `apply_grayscale` (src/app.py lines 87-89)
delegates to PIL `convert('L')`; section 4.3 reduces 3 channels to 1 by the
fixed luminance weighting, rounded and clamped, and section 8 states that a
buffer that already has one channel is returned unchanged. -/
def apply_grayscale (b : PixelBuffer) : PixelBuffer :=
  if b.channels = 1 then b
  else
    { width := b.width, height := b.height, channels := 1,
      data := fun i j _ => clampRound (lumAt b i j) }

/-- Least natural number whose square is at least `n`, the rounding-up of
`√n` used to model canvas expansion. -/
def ceilSqrt (n : Nat) : Nat :=
  if Nat.sqrt n * Nat.sqrt n = n then Nat.sqrt n else Nat.sqrt n + 1

/-- Modelled from the spec: the canvas side produced by expanding a `w × h`
image under a ±45° rotation (section 4.4).  The bounding box of the rotated
content is the square of side `(w + h) / √2`, rounded up to whole pixels:
the least `m` with `m ≥ (w + h) / √2`, i.e. with `m² ≥ ⌈(w + h)² / 2⌉`. -/
def rotSide (w h : Nat) : Nat := ceilSqrt (((w + h) * (w + h) + 1) / 2)

/-- Modelled from the spec: one fixed-angle rotation with canvas expansion
(section 4.4 steps 1 and 2).  The canvas grows to the bounding box of the
rotated content; the resampled pixel content is the open design choice of
section 9 and is supplied as a parameter. -/
def rotateExpand (resample : PixelBuffer → Nat → Nat → Nat → Nat)
    (b : PixelBuffer) : PixelBuffer :=
  { width := rotSide b.width b.height, height := rotSide b.width b.height,
    channels := b.channels, data := resample b }

/-- Modelled from the spec: the horizontal mirror flip (section 4.4 step 3),
PIL `FLIP_LEFT_RIGHT`: same canvas, column `j` reads column `w - 1 - j`. -/
def flipLR (b : PixelBuffer) : PixelBuffer :=
  { width := b.width, height := b.height, channels := b.channels,
    data := fun i j k => b.data i (b.width - 1 - j) k }

/-- Embedding of `apply_rotate` (src/app.py lines 109-115): rotate +45° with
expansion, rotate the result −45° with expansion, then flip the result
horizontally. -/
def apply_rotate (ext : Externals) (b : PixelBuffer) : PixelBuffer :=
  flipLR (rotateExpand ext.resampleNeg45 (rotateExpand ext.resamplePos45 b))

/-- The tagged error kinds of spec section 7. -/
inductive AppError where
  | invalidInput
  | unknownOperation
  | decodeFailure
  | processingFailure
deriving DecidableEq

/-- Mapping of a transform's outcome into the handler's result: the
try/except of `process_image` (src/app.py lines 194-221) turns an exception
raised inside a transform (the only modelled one: `ValueError` from
`apply_noise_reduction` on a 2-D array) into a processing failure, and a
returned buffer into the success payload, unchanged. -/
def liftTransformResult : Option PixelBuffer → Except AppError PixelBuffer
  | some r => Except.ok r
  | none => Except.error AppError.processingFailure

/-- Embedding of the `OPERATIONS` dict (src/app.py lines 149-157) as its
lookup function: the seven fixed operation names map to their transforms,
every other name to `none`. -/
def OPERATIONS (ext : Externals) : String → Option (PixelBuffer → Option PixelBuffer) :=
  fun name =>
    if name = "blur" then some (fun b => some (apply_blur ext.blurKernel b))
    else if name = "sharpen" then some (fun b => some (apply_sharpen b))
    else if name = "edge_detect" then some (fun b => some (apply_edge_detect b))
    else if name = "grayscale" then some (fun b => some (apply_grayscale b))
    else if name = "enhance" then some (fun b => some (apply_enhance b))
    else if name = "rotate" then some (fun b => some (apply_rotate ext b))
    else if name = "noise_reduction" then some apply_noise_reduction
    else none

/-- The seven operation names registered in `OPERATIONS`. -/
def opNames : List String :=
  ["blur", "sharpen", "edge_detect", "grayscale", "enhance", "rotate", "noise_reduction"]

lemma OPERATIONS_isNone_iff (ext : Externals) (name : String) :
    OPERATIONS ext name = none ↔ name ∉ opNames := by
  simp only [opNames, List.mem_cons, List.not_mem_nil, or_false]
  unfold OPERATIONS
  split_ifs with h1 h2 h3 h4 h5 h6 h7 <;> simp_all

/-- The dispatcher of spec section 4.6, as realized by `process_image`
(src/app.py lines 191-203): a name absent from the registry fails with
`UnknownOperation`; a registered name invokes its transform and hands back
the transform's result unchanged. -/
def dispatch (ext : Externals) (name : String) (b : PixelBuffer) :
    Except AppError PixelBuffer :=
  match OPERATIONS ext name with
  | none => Except.error AppError.unknownOperation
  | some f => liftTransformResult (f b)

/-- The request fields `process_image` inspects before decoding: whether a
file field named image is present, its client file name, and the optional
operation form field. -/
structure Request where
  hasImageFile : Bool
  filename : String
  operation : Option String

/-- Operation selection of `process_image` (src/app.py line 189):
`request.form.get('operation', 'blur')` falls back to blur when the form
omits the operation. -/
def selectOperation (o : Option String) : String := o.getD ("blur")

/-- Embedding of the handler `process_image` (src/app.py lines 176-221):
reject a missing or unselected image file (`InvalidInput`), then validate
the operation name against the registry (`UnknownOperation`), and only then
decode the image bytes.  The decode outcome is supplied by the external
codec (spec section 4.1) as `decoded`; `none` models undecodable bytes
(`DecodeFailure`).  On success the chosen transform runs under the
try/except. -/
def process_image (ext : Externals) (decoded : Option PixelBuffer) (req : Request) :
    Except AppError PixelBuffer :=
  if req.hasImageFile = false then Except.error AppError.invalidInput
  else if req.filename = "" then Except.error AppError.invalidInput
  else
    match OPERATIONS ext (selectOperation req.operation) with
    | none => Except.error AppError.unknownOperation
    | some f =>
      match decoded with
      | none => Except.error AppError.decodeFailure
      | some img => liftTransformResult (f img)

/-- C1 amended (theorem): for every valid buffer (positive dimensions,
1 or 3 channels) the blur, sharpen, edge-detect and enhance transforms keep
width, height and channel count; noise reduction keeps them on 3-channel
buffers but fails outright on 1-channel buffers; grayscale always yields a
1-channel output. -/
theorem transform_dimension_invariants (ext : Externals) (b : PixelBuffer)
    (hw : 0 < b.width) (hh : 0 < b.height)
    (hc : b.channels = 1 ∨ b.channels = 3) :
    ((apply_blur ext.blurKernel b).width = b.width ∧
      (apply_blur ext.blurKernel b).height = b.height ∧
      (apply_blur ext.blurKernel b).channels = b.channels) ∧
    ((apply_sharpen b).width = b.width ∧
      (apply_sharpen b).height = b.height ∧
      (apply_sharpen b).channels = b.channels) ∧
    ((apply_edge_detect b).width = b.width ∧
      (apply_edge_detect b).height = b.height ∧
      (apply_edge_detect b).channels = b.channels) ∧
    ((apply_enhance b).width = b.width ∧
      (apply_enhance b).height = b.height ∧
      (apply_enhance b).channels = b.channels) ∧
    (apply_grayscale b).channels = 1 ∧
    (b.channels = 3 →
      ∃ r, apply_noise_reduction b = some r ∧
        r.width = b.width ∧ r.height = b.height ∧ r.channels = b.channels) ∧
    (b.channels = 1 → apply_noise_reduction b = none) := by
  refine ⟨⟨rfl, rfl, rfl⟩, ⟨rfl, rfl, rfl⟩, ⟨rfl, rfl, rfl⟩, ⟨rfl, rfl, rfl⟩, ?_, ?_, ?_⟩
  · unfold apply_grayscale
    split_ifs with h
    · exact h
    · rfl
  · intro h3
    unfold apply_noise_reduction
    rw [if_neg (by omega)]
    exact ⟨_, rfl, rfl, rfl, rfl⟩
  · intro h1
    simp [apply_noise_reduction, h1]

/-- C1 witness: the dimension invariants evaluated on a concrete 2×2
three-channel buffer. -/
theorem transform_dimension_invariants_example :
    (apply_blur defaultExternals.blurKernel (mkUniform 2 2 3 7)).width = 2 ∧
    (apply_grayscale (mkUniform 2 2 3 7)).channels = 1 := by
  have T := transform_dimension_invariants defaultExternals (mkUniform 2 2 3 7)
    (by norm_num [mkUniform]) (by norm_num [mkUniform]) (Or.inr rfl)
  exact ⟨T.1.1, T.2.2.2.2.1⟩

/-- C1 counterexample: noise reduction is claimed to succeed on every valid
buffer with 1 or 3 channels, but on a valid 1×1 single-channel buffer the
code's three-axis pad of a 2-D array raises and no output is produced. -/
theorem noise_reduction_fails_on_one_channel :
    apply_noise_reduction (mkUniform 1 1 1 5) = none := rfl

/-- C5: the dispatcher fails with `UnknownOperation`, producing no output
buffer, exactly when the name is none of blur, sharpen, edge_detect,
grayscale, enhance, rotate, noise_reduction; a registered name has its
transform invoked and its result handed back unchanged. -/
theorem dispatch_unknown_operation_iff (ext : Externals) (name : String)
    (b : PixelBuffer) :
    (dispatch ext name b = Except.error AppError.unknownOperation ↔ name ∉ opNames) ∧
    (∀ f, OPERATIONS ext name = some f →
      dispatch ext name b = liftTransformResult (f b)) := by
  constructor
  · rcases hop : OPERATIONS ext name with _ | f
    · simp [dispatch, hop, (OPERATIONS_isNone_iff ext name).mp hop]
    · have hmem : name ∈ opNames := by
        by_contra hn
        rw [(OPERATIONS_isNone_iff ext name).mpr hn] at hop
        cases hop
      simp only [dispatch, hop]
      constructor
      · intro hlift
        rcases hfb : f b with _ | r <;> simp [liftTransformResult, hfb] at hlift
      · intro hns
        exact absurd hmem hns
  · intro f hf
    simp [dispatch, hf]

/-- C5 witness: an unregistered name fails with `UnknownOperation` while a
registered one does not, on a concrete buffer. -/
theorem dispatch_unknown_operation_example :
    dispatch defaultExternals ("not_a_real_op") (mkUniform 1 1 3 0) =
      Except.error AppError.unknownOperation ∧
    dispatch defaultExternals ("grayscale") (mkUniform 1 1 3 0) ≠
      Except.error AppError.unknownOperation := by
  constructor
  · exact (dispatch_unknown_operation_iff defaultExternals ("not_a_real_op")
      (mkUniform 1 1 3 0)).1.mpr (by decide)
  · intro hcontra
    exact absurd ((dispatch_unknown_operation_iff defaultExternals ("grayscale")
      (mkUniform 1 1 3 0)).1.mp hcontra) (by simp [opNames])

lemma ceilSqrt_sq_ge (n : Nat) : n ≤ ceilSqrt n * ceilSqrt n := by
  unfold ceilSqrt
  split_ifs with h
  · omega
  · exact Nat.le_of_lt (by simpa [Nat.succ_eq_add_one] using Nat.lt_succ_sqrt n)

lemma rotSide_sq_ge (w h : Nat) :
    (w + h) * (w + h) ≤ 2 * (rotSide w h * rotSide w h) := by
  have h1 : ((w + h) * (w + h) + 1) / 2 ≤ rotSide w h * rotSide w h :=
    ceilSqrt_sq_ge (((w + h) * (w + h) + 1) / 2)
  omega

lemma final_side_ge (w h : Nat) :
    w + h ≤ rotSide (rotSide w h) (rotSide w h) := by
  have h1 : (w + h) * (w + h) ≤ 2 * (rotSide w h * rotSide w h) := rotSide_sq_ge w h
  have h2 : ((rotSide w h + rotSide w h) * (rotSide w h + rotSide w h) + 1) / 2 ≤
      rotSide (rotSide w h) (rotSide w h) * rotSide (rotSide w h) (rotSide w h) :=
    ceilSqrt_sq_ge _
  have h3 : (rotSide w h + rotSide w h) * (rotSide w h + rotSide w h) =
      4 * (rotSide w h * rotSide w h) := by ring
  have h4 : (w + h) * (w + h) ≤
      rotSide (rotSide w h) (rotSide w h) * rotSide (rotSide w h) (rotSide w h) := by
    omega
  by_contra hlt
  push_neg at hlt
  have h5 := Nat.mul_self_lt_mul_self hlt
  omega

/-- C6: rotate is the ordered composition of a +45° expansion rotation, a
−45° expansion rotation of that result, and a horizontal mirror flip of that
result, and because the two expansions compound, the final canvas is
strictly larger than the input in both dimensions, for every choice of the
resampling rule the spec leaves open. -/
theorem rotate_pipeline_and_growth (ext : Externals) (b : PixelBuffer)
    (hw : 0 < b.width) (hh : 0 < b.height) :
    apply_rotate ext b =
      flipLR (rotateExpand ext.resampleNeg45 (rotateExpand ext.resamplePos45 b)) ∧
    b.width < (apply_rotate ext b).width ∧
    b.height < (apply_rotate ext b).height := by
  refine ⟨rfl, ?_, ?_⟩
  · show b.width < rotSide (rotSide b.width b.height) (rotSide b.width b.height)
    have := final_side_ge b.width b.height
    omega
  · show b.height < rotSide (rotSide b.width b.height) (rotSide b.width b.height)
    have := final_side_ge b.width b.height
    omega

/-- C6 witness: the pipeline on a concrete 2×3 buffer grows both canvas
dimensions strictly. -/
theorem rotate_pipeline_growth_example :
    2 < (apply_rotate defaultExternals (mkUniform 2 3 3 0)).width ∧
    3 < (apply_rotate defaultExternals (mkUniform 2 3 3 0)).height := by
  have T := rotate_pipeline_and_growth defaultExternals (mkUniform 2 3 3 0)
    (by norm_num [mkUniform]) (by norm_num [mkUniform])
  exact ⟨T.2.1, T.2.2⟩

/-- C7: enhance is the strictly ordered composition of exactly three
linear-interpolation steps — saturation with factor 1.5, then contrast with
factor 1.3, then sharpness with factor 1.2 — each consuming the output of
the previous step rather than the original image. -/
theorem enhance_is_ordered_composition (b : PixelBuffer) :
    apply_enhance b =
      sharpnessStep (6 / 5) (contrastStep (13 / 10) (saturationStep (3 / 2) b)) := rfl

/-- C8: grayscale applied to a buffer that already has exactly one channel
returns that buffer itself — same dimensions, same channel count, identical
samples. -/
theorem grayscale_identity_on_one_channel (b : PixelBuffer)
    (hc : b.channels = 1) : apply_grayscale b = b := by
  simp [apply_grayscale, hc]

/-- C8 witness: grayscale on a concrete single-channel buffer. -/
theorem grayscale_identity_on_one_channel_example :
    apply_grayscale (mkUniform 3 2 1 42) = mkUniform 3 2 1 42 :=
  grayscale_identity_on_one_channel (mkUniform 3 2 1 42) rfl

/-- C9: a request that supplies an image file but omits the operation form
field entirely does not fail with `UnknownOperation`: the selection falls
back to the name blur, whose transform is applied to the decoded image. -/
theorem default_operation_is_blur (ext : Externals) (fn : String)
    (img : PixelBuffer) (hfn : fn ≠ ("")) :
    process_image ext (some img)
      { hasImageFile := true, filename := fn, operation := none } =
      Except.ok (apply_blur ext.blurKernel img) ∧
    ∀ d, process_image ext d
      { hasImageFile := true, filename := fn, operation := none } ≠
      Except.error AppError.unknownOperation := by
  constructor
  · simp [process_image, hfn, selectOperation, OPERATIONS, liftTransformResult]
  · intro d
    rcases d with _ | img2 <;>
      simp [process_image, hfn, selectOperation, OPERATIONS, liftTransformResult]

/-- C9 witness: a concrete request with the operation field absent is
processed with blur. -/
theorem default_operation_is_blur_example :
    process_image defaultExternals (some (mkUniform 2 2 3 9))
      { hasImageFile := true, filename := ("photo.jpg"), operation := none } =
      Except.ok (apply_blur defaultExternals.blurKernel (mkUniform 2 2 3 9)) :=
  (default_operation_is_blur defaultExternals ("photo.jpg") (mkUniform 2 2 3 9)
    (by decide)).1

/-- C10: operation-name validation precedes image decoding — a request whose
selected operation is not in the registry fails with `UnknownOperation` for
every decode outcome, including undecodable bytes (`decoded = none`), so the
`UnknownOperation` error takes precedence over `DecodeFailure`. -/
theorem unknown_operation_precedes_decode (ext : Externals) (req : Request)
    (decoded : Option PixelBuffer) (h1 : req.hasImageFile = true)
    (h2 : req.filename ≠ (""))
    (h3 : OPERATIONS ext (selectOperation req.operation) = none) :
    process_image ext decoded req = Except.error AppError.unknownOperation := by
  simp [process_image, h1, h2, h3]

/-- C10 witness: a concrete request naming an unregistered operation over
undecodable bytes fails with `UnknownOperation`, not `DecodeFailure`. -/
theorem unknown_operation_precedes_decode_example :
    process_image defaultExternals none
      { hasImageFile := true, filename := ("photo.jpg"),
        operation := some ("not_a_real_op") } =
      Except.error AppError.unknownOperation := by
  apply unknown_operation_precedes_decode
  · rfl
  · decide
  · exact (OPERATIONS_isNone_iff defaultExternals
      (selectOperation (some ("not_a_real_op")))).mpr (by decide)
